import Mathlib

/-!
Shallow embedding of the core of the LoadBalancer_RateLimiter repository:
the backend registry with its health-update bus, the health checker's
edge-detection, the round-robin strategy, the retrying proxy, and the
token-bucket rate limiter.  Machine integers are modelled as `Nat` with
explicit reduction modulo `2 ^ 32` where the Go source uses `uint32`;
Go maps are modelled as functions into `Option`; Go channels used as
counting semaphores are modelled by their current token count.
-/

namespace LB

/-- Backend descriptor (src/internal/modules/backends/models/model.go).
`Id` is the `uint64` identity, `URL` the base URL, `Health` the probe path. -/
structure Backend where
  Id : Nat
  URL : String
  Health : String
deriving DecidableEq, Repr

/-- Backend status: a pair (identity, healthy?). -/
structure BackendStatus where
  Id : Nat
  IsHealthy : Bool
deriving DecidableEq, Repr

/-! ## Round-robin strategy (loadBalancer/service.go, GetNextBackend)

The Go strategy keeps a `uint32` counter `current`; each call does
`index := atomic.AddUint32(&rr.current, 1) - 1` (the `- 1` is computed in
`uint32`, so it wraps) and returns `backends[index % uint32(len(backends))]`.
The counter is modelled as a `Nat` kept below `2 ^ 32`. -/

def U32 : Nat := 2 ^ 32

/-- One call of `GetNextBackend`: takes the current counter value and the
candidate list, returns the result (`Except` mirroring the Go `error`) and
the new counter value.  The index arithmetic follows the source: the new
counter is the wrapped increment, the selection index is that value minus
one computed in `uint32`, reduced modulo `uint32(len(backends))`.  The Go
expression `backends[...]` would panic out of range, hence the inner
`Option` lookup; the error branch leaves the counter untouched because the
source returns before the atomic increment. -/
def GetNextBackend (current : Nat) (backends : List Backend) :
    Except String Backend × Nat :=
  if backends.length = 0 then
    (Except.error "no backends available", current)
  else
    let newCur := (current + 1) % U32
    let index := (newCur + (U32 - 1)) % U32
    match backends[index % (backends.length % U32)]? with
    | some b => (Except.ok b, newCur)
    | none => (Except.error "index out of range", newCur)

/-- C4: for a non-empty candidate list the strategy returns the element at
index `current mod length` (where `current` is the pre-increment counter)
and bumps the counter by one modulo `2^32`; for the empty list it errors
and leaves the counter alone. -/
theorem getNextBackend_roundRobin (current : Nat) (backends : List Backend)
    (h1 : current < U32) (h2 : backends.length < U32) :
    (backends.length = 0 →
      GetNextBackend current backends =
        (Except.error "no backends available", current)) ∧
    (0 < backends.length →
      GetNextBackend current backends =
        (Except.ok (backends.getD (current % backends.length) ⟨0, "", ""⟩),
         (current + 1) % U32)) := by
  constructor
  · intro hlen
    simp [GetNextBackend, hlen]
  · intro hpos
    have hlen : backends.length ≠ 0 := Nat.pos_iff_ne_zero.mp hpos
    have hidx : ((current + 1) % U32 + (U32 - 1)) % U32 = current := by
      simp only [U32] at h1 ⊢
      omega
    have hmodlen : backends.length % U32 = backends.length := Nat.mod_eq_of_lt h2
    have hlt : current % backends.length < backends.length := Nat.mod_lt _ hpos
    simp only [GetNextBackend, hlen, if_false, hidx, hmodlen]
    rw [List.getElem?_eq_getElem hlt]
    simp [List.getD_eq_getElem?_getD, List.getElem?_eq_getElem hlt]

/-- C4 witness: the theorem instantiated at counter 5 and a concrete
three-element candidate list; 5 mod 3 = 2, so the third backend is chosen
and the counter becomes 6. -/
theorem getNextBackend_roundRobin_witness :
    0 < ([⟨1, "u1", "/h"⟩, ⟨2, "u2", "/h"⟩, ⟨3, "u3", "/h"⟩] :
        List Backend).length ∧
    GetNextBackend 5 [⟨1, "u1", "/h"⟩, ⟨2, "u2", "/h"⟩, ⟨3, "u3", "/h"⟩] =
      (Except.ok (([⟨1, "u1", "/h"⟩, ⟨2, "u2", "/h"⟩, ⟨3, "u3", "/h"⟩] :
          List Backend).getD (5 % 3) ⟨0, "", ""⟩), (5 + 1) % U32) :=
  ⟨by decide,
   (getNextBackend_roundRobin 5 _ (by norm_num [U32]) (by norm_num [U32])).2
     (by decide)⟩

/-! ## Backend registry (backends/model.go)

Go maps become functions into `Option`; each subscriber channel becomes the
list of status values delivered to it so far (send appends). -/

/-- Registry state: descriptor map, latest-status map, and per-identity
subscriber channels (each channel modelled by its delivered messages). -/
structure BackendRegistry where
  backendId : Nat → Option Backend
  backends : Nat → Option BackendStatus
  subscribers : Nat → List (List BackendStatus)

/-- `NewBackendRegistry`: all maps empty. -/
def NewBackendRegistry : BackendRegistry :=
  { backendId := fun _ => none
    backends := fun _ => none
    subscribers := fun _ => [] }

/-- `AddBackendToRegistry`: stores the descriptor under its identity. -/
def AddBackendToRegistry (r : BackendRegistry) (b : Backend) :
    BackendRegistry :=
  { r with backendId := fun k => if k = b.Id then some b else r.backendId k }

/-- `GetBackendById`: descriptor lookup. -/
def GetBackendById (r : BackendRegistry) (id : Nat) : Option Backend :=
  r.backendId id

/-- `UpdateHealth`: if the status equals the zero value `BackendStatus{}`
(identity 0, healthy false) the source calls `log.Fatal`, modelled as
`none` (the process dies, no new state exists).  Otherwise it records the
status as the backend's latest, sends it to every subscriber channel of
that identity, and returns `nil` — there is no registry-membership check. -/
def UpdateHealth (r : BackendRegistry) (status : BackendStatus) :
    Option BackendRegistry :=
  if status = ⟨0, false⟩ then
    none
  else
    some { r with
      backends := fun k => if k = status.Id then some status else r.backends k
      subscribers := fun k =>
        if k = status.Id then (r.subscribers k).map (fun ch => ch ++ [status])
        else r.subscribers k }

/-- `Subscribe`: registers a fresh (empty) channel for the identity and the
channel is the last element of the subscriber list. -/
def Subscribe (r : BackendRegistry) (backendId : Nat) : BackendRegistry :=
  { r with subscribers := fun k =>
      if k = backendId then r.subscribers k ++ [[]] else r.subscribers k }

/-- C9 counterexample: on a registry with no descriptors at all,
`UpdateHealth ⟨5, true⟩` does not fail with an UnknownBackend error — it
succeeds (returns `nil`) and records the status as identity 5's latest. -/
theorem updateHealth_no_unknownBackend_check :
    GetBackendById NewBackendRegistry 5 = none ∧
    ∃ r, UpdateHealth NewBackendRegistry ⟨5, true⟩ = some r ∧
      r.backends 5 = some ⟨5, true⟩ := by
  refine ⟨rfl, ?_⟩
  refine ⟨_, rfl, ?_⟩
  simp

/-- C9 amended: `UpdateHealth` performs no registry-membership check.  For
every status other than the zero value it succeeds, records the status as
the identity's latest, and appends it to every subscriber channel of that
identity, leaving other identities untouched — whether or not a descriptor
is registered. -/
theorem updateHealth_records_and_delivers (r : BackendRegistry)
    (status : BackendStatus) (h : status ≠ ⟨0, false⟩) :
    ∃ r2, UpdateHealth r status = some r2 ∧
      r2.backends status.Id = some status ∧
      r2.subscribers status.Id =
        (r.subscribers status.Id).map (fun ch => ch ++ [status]) ∧
      r2.backendId = r.backendId ∧
      (∀ k, k ≠ status.Id → r2.backends k = r.backends k ∧
        r2.subscribers k = r.subscribers k) := by
  unfold UpdateHealth
  rw [if_neg h]
  refine ⟨_, rfl, by simp, by simp, rfl, ?_⟩
  intro k hk
  exact ⟨by simp [hk], by simp [hk]⟩

/-- C9 amended witness: at a registry with one subscriber channel for
identity 5 and no descriptor, publishing `⟨5, true⟩` succeeds, records the
status, and delivers it to the channel. -/
theorem updateHealth_records_and_delivers_witness :
    (⟨5, true⟩ : BackendStatus) ≠ ⟨0, false⟩ ∧
    ∃ r2, UpdateHealth (Subscribe NewBackendRegistry 5) ⟨5, true⟩ = some r2 ∧
      r2.backends 5 = some ⟨5, true⟩ ∧
      r2.subscribers 5 =
        ((Subscribe NewBackendRegistry 5).subscribers 5).map
          (fun ch => ch ++ [⟨5, true⟩]) ∧
      r2.backendId = (Subscribe NewBackendRegistry 5).backendId ∧
      (∀ k, k ≠ 5 → r2.backends k = (Subscribe NewBackendRegistry 5).backends k ∧
        r2.subscribers k = (Subscribe NewBackendRegistry 5).subscribers k) :=
  ⟨by decide,
   updateHealth_records_and_delivers (Subscribe NewBackendRegistry 5)
     ⟨5, true⟩ (by decide)⟩

/-- C10: `UpdateHealth` of the zero-value status (identity 0, healthy
false) hits `log.Fatal` and never returns (no state is recorded, nobody is
notified); every other status avoids the fatal branch and returns `nil`. -/
theorem updateHealth_fatal_on_zero_status (r : BackendRegistry)
    (status : BackendStatus) :
    UpdateHealth r ⟨0, false⟩ = none ∧
    (status ≠ ⟨0, false⟩ → ∃ r2, UpdateHealth r status = some r2) :=
  ⟨by simp [UpdateHealth], fun h => ⟨_, by unfold UpdateHealth; rw [if_neg h]⟩⟩

/-- C10 witness: instantiated at the empty registry and the status
`⟨1, true⟩`, which is not the zero value. -/
theorem updateHealth_fatal_on_zero_status_witness :
    UpdateHealth NewBackendRegistry ⟨0, false⟩ = none ∧
    ∃ r2, UpdateHealth NewBackendRegistry ⟨1, true⟩ = some r2 :=
  ⟨(updateHealth_fatal_on_zero_status NewBackendRegistry ⟨1, true⟩).1,
   (updateHealth_fatal_on_zero_status NewBackendRegistry ⟨1, true⟩).2
     (by decide)⟩

/-! ## Health checker edge detection (healthchecker/health_checker.go)

`updateStatus` consults the process-wide `healthySet` (a `sync.Map` used as
a set of identities, modelled as `Finset ℕ`) and publishes a status only on
an edge.  The published value (if any) is returned alongside the new set. -/

/-- `updateStatus`: store + publish `healthy=true` when the observation is
healthy and the identity is absent; delete + publish `healthy=false` when
unhealthy and present; otherwise do nothing and publish nothing. -/
def updateStatus (healthySet : Finset ℕ) (id : Nat) (isHealthy : Bool) :
    Finset ℕ × Option Bool :=
  if isHealthy ∧ id ∉ healthySet then
    (insert id healthySet, some true)
  else if ¬isHealthy ∧ id ∈ healthySet then
    (healthySet.erase id, some false)
  else
    (healthySet, none)

/-- C5: a status is published exactly on an edge — `healthy=true` iff the
observation is healthy and the identity was absent from the healthy set
(and it is then added), `healthy=false` iff the observation is unhealthy
and the identity was present (and it is then removed), and nothing iff the
observation matches the current membership (set unchanged). -/
theorem updateStatus_edge_only (s : Finset ℕ) (id : Nat) (isHealthy : Bool) :
    ((updateStatus s id isHealthy).2 = some true ↔
        isHealthy = true ∧ id ∉ s) ∧
    ((updateStatus s id isHealthy).2 = some false ↔
        isHealthy = false ∧ id ∈ s) ∧
    ((updateStatus s id isHealthy).2 = none ↔
        (isHealthy = true ↔ id ∈ s)) ∧
    ((updateStatus s id isHealthy).2 = some true →
        (updateStatus s id isHealthy).1 = insert id s) ∧
    ((updateStatus s id isHealthy).2 = some false →
        (updateStatus s id isHealthy).1 = s.erase id) ∧
    ((updateStatus s id isHealthy).2 = none →
        (updateStatus s id isHealthy).1 = s) := by
  unfold updateStatus
  by_cases hmem : id ∈ s <;> cases isHealthy <;> simp [hmem]

/-- C5 witness: on the empty set, a healthy observation of identity 3
publishes `healthy=true`; via the theorem's first equivalence. -/
theorem updateStatus_edge_only_witness :
    (updateStatus (∅ : Finset ℕ) 3 true).2 = some true :=
  ((updateStatus_edge_only (∅ : Finset ℕ) 3 true).1).mpr ⟨rfl, by decide⟩

/-! ## Route balancer healthy subset (loadBalancer/service.go)

The subscription consumer applies each `BackendStatus` to the route's
`healthyBackends` list.  `addToHealthyBacks` ranges over the current list
and, for every element already carrying the identity, appends that element
again (the Go `range` iterates the original slice snapshot, so the result
is the old list followed by its matching elements); it then looks the
identity up in the registry and, when found, appends the descriptor once
more.  `removeFromHealthyBackends` removes the first match only. -/

/-- `addToHealthyBacks` as written in the source. -/
def addToHealthyBacks (reg : BackendRegistry) (healthy : List Backend)
    (id : Nat) : List Backend :=
  let afterLoop := healthy ++ healthy.filter (fun b => b.Id == id)
  match GetBackendById reg id with
  | none => afterLoop
  | some b => afterLoop ++ [b]

/-- `removeFromHealthyBackends`: drop the first element with the identity. -/
def removeFromHealthyBackends (healthy : List Backend) (backendId : Nat) :
    List Backend :=
  match healthy with
  | [] => []
  | b :: rest =>
      if b.Id == backendId then rest
      else b :: removeFromHealthyBackends rest backendId

/-- `updateProcess`: dispatch on the status flag. -/
def updateProcess (reg : BackendRegistry) (healthy : List Backend)
    (update : BackendStatus) : List Backend :=
  if update.IsHealthy then addToHealthyBacks reg healthy update.Id
  else removeFromHealthyBackends healthy update.Id

/-- C1 evaluated at the failing input: with backend 1 registered, the
first `healthy=true` yields one occurrence, but a second `healthy=true`
for the already-present identity yields three occurrences — the healthy
subset is not duplicate-free, contradicting the stated invariant. -/
theorem healthySubset_gains_duplicates :
    ((updateProcess
        (AddBackendToRegistry NewBackendRegistry ⟨1, "u1", "/h"⟩)
        [] ⟨1, true⟩).countP (fun b => b.Id == 1) = 1) ∧
    ((updateProcess
        (AddBackendToRegistry NewBackendRegistry ⟨1, "u1", "/h"⟩)
        (updateProcess
          (AddBackendToRegistry NewBackendRegistry ⟨1, "u1", "/h"⟩)
          [] ⟨1, true⟩) ⟨1, true⟩).countP (fun b => b.Id == 1) = 3) := by
  constructor <;> rfl

/-! ## Token-bucket rate limiter (rateLimiter/service.go)

A Go `chan struct{}` of capacity `cap` used as a counting semaphore is
modelled by its current token count together with its capacity; the
non-blocking send of `refillBuckets` adds one token unless full, the
non-blocking receive of `Allow` removes one token unless empty.  The Go
maps `tokenBucket` and `clients` become functions into `Option`. -/

/-- A token bucket: current token count and capacity. -/
structure Bucket where
  tokens : Nat
  cap : Nat
deriving DecidableEq, Repr

/-- A fresh bucket seeded full, as in the construction loops of
`NewTokenBucketLimiter` and `AddClient`. -/
def newBucket (cap : Nat) : Bucket := ⟨cap, cap⟩

/-- Non-blocking send into a bucket: add one token, skip when full. -/
def refillBucket (b : Bucket) : Bucket :=
  if b.tokens < b.cap then { b with tokens := b.tokens + 1 } else b

/-- Client config (rateLimiter/models.go): key, capacity, interval. -/
structure ClientConfig where
  Ip : String
  Capacity : Nat
  Interval : Nat
deriving DecidableEq, Repr

/-- Go map insert. -/
def mapUpdate {α : Type} (m : String → Option α) (k : String) (v : α) :
    String → Option α :=
  fun x => if x = k then some v else m x

/-- Go map delete. -/
def mapDelete {α : Type} (m : String → Option α) (k : String) :
    String → Option α :=
  fun x => if x = k then none else m x

/-- Limiter state: bucket map and client-config map (the refill period and
logger play no role in the claims). -/
structure TokenBucketLimiter where
  tokenBucket : String → Option Bucket
  clients : String → Option ClientConfig
  defaultCap : Nat

/-- `NewTokenBucketLimiter`: empty maps except the `default` bucket,
seeded full with the configured limit. -/
def NewTokenBucketLimiter (limit : Nat) : TokenBucketLimiter :=
  { tokenBucket := mapUpdate (fun _ => none) "default" (newBucket limit)
    clients := fun _ => none
    defaultCap := limit }

/-- `getIPFromIdentifier`: the identifier itself when it contains a dot or
a colon, otherwise the empty string.  `strings.Contains` with a one-char
needle is membership of that character, expressed on the string's
character list. -/
def getIPFromIdentifier (identifier : String) : String :=
  if identifier.data.contains '.' || identifier.data.contains ':' then
    identifier
  else ""

/-- `allowDefault`: non-blocking receive from the `default` bucket (a
missing `default` entry is a nil channel, whose receive is never ready, so
the `select` falls to its `default` arm and rejects). -/
def allowDefault (tb : TokenBucketLimiter) : TokenBucketLimiter × Bool :=
  match tb.tokenBucket "default" with
  | some b =>
      if 0 < b.tokens then
        ({ tb with
            tokenBucket := mapUpdate tb.tokenBucket "default"
              ⟨b.tokens - 1, b.cap⟩ },
         true)
      else (tb, false)
  | none => (tb, false)

/-- `Allow`: look the derived key up in the bucket map; on a hit, take one
token non-blockingly from that bucket (reject when it is empty, without
falling back); on a miss, fall through to the `default` bucket. -/
def Allow (tb : TokenBucketLimiter) (ip : String) :
    TokenBucketLimiter × Bool :=
  match tb.tokenBucket (getIPFromIdentifier ip) with
  | some b =>
      if 0 < b.tokens then
        ({ tb with
            tokenBucket := mapUpdate tb.tokenBucket (getIPFromIdentifier ip)
              ⟨b.tokens - 1, b.cap⟩ },
         true)
      else (tb, false)
  | none => allowDefault tb

/-- `refillBuckets`: one non-blocking send into every bucket of the map. -/
def refillBuckets (tb : TokenBucketLimiter) : TokenBucketLimiter :=
  { tb with tokenBucket := fun k => (tb.tokenBucket k).map refillBucket }

/-- `AddClient`: store the config and a fresh full bucket under its key. -/
def AddClient (tb : TokenBucketLimiter) (c : ClientConfig) :
    TokenBucketLimiter :=
  { tb with
    clients := mapUpdate tb.clients c.Ip c
    tokenBucket := mapUpdate tb.tokenBucket c.Ip (newBucket c.Capacity) }

/-- `GetClient`: config lookup. -/
def GetClient (tb : TokenBucketLimiter) (clientIp : String) :
    Option ClientConfig :=
  tb.clients clientIp

/-- `DeleteClient`: when the key is registered, delete the bucket under the
stored config's key (when non-empty), the config, and the bucket under the
request key; otherwise do nothing. -/
def DeleteClient (tb : TokenBucketLimiter) (clientIp : String) :
    TokenBucketLimiter :=
  match tb.clients clientIp with
  | none => tb
  | some client =>
      let buckets1 :=
        if client.Ip ≠ "" then mapDelete tb.tokenBucket client.Ip
        else tb.tokenBucket
      { tb with
        clients := mapDelete tb.clients clientIp
        tokenBucket := mapDelete buckets1 clientIp }

/-- C7: admission consults the client's own bucket exactly when the key
contains a dot or a colon and a bucket is registered under that exact key
(admit iff that bucket has a token, with no fallback to `default` on
emptiness); every other key — in particular the empty key derived from an
unparsable remote address — falls through to the `default` bucket, which
admits iff it has a token.  The hypothesis that no bucket is registered
under the empty key holds in the system: the reserved key is `"default"`
and the management surface requires a non-empty client key. -/
theorem allow_client_bucket_or_default (tb : TokenBucketLimiter)
    (ip : String) (hempty : tb.tokenBucket "" = none) :
    ((ip.data.contains '.' || ip.data.contains ':') = true →
      (∀ b, tb.tokenBucket ip = some b →
        (0 < b.tokens →
          Allow tb ip =
            ({ tb with
                tokenBucket := mapUpdate tb.tokenBucket ip
                  ⟨b.tokens - 1, b.cap⟩ }, true)) ∧
        (b.tokens = 0 → Allow tb ip = (tb, false))) ∧
      (tb.tokenBucket ip = none → Allow tb ip = allowDefault tb)) ∧
    ((ip.data.contains '.' || ip.data.contains ':') = false →
      Allow tb ip = allowDefault tb) ∧
    (∀ b, tb.tokenBucket "default" = some b →
      (0 < b.tokens →
        allowDefault tb =
          ({ tb with
              tokenBucket := mapUpdate tb.tokenBucket "default"
                ⟨b.tokens - 1, b.cap⟩ }, true)) ∧
      (b.tokens = 0 → allowDefault tb = (tb, false))) ∧
    (tb.tokenBucket "default" = none → allowDefault tb = (tb, false)) := by
  refine ⟨?_, ?_, ?_, ?_⟩
  · intro hc
    have hkey : getIPFromIdentifier ip = ip := by
      unfold getIPFromIdentifier
      rw [hc]
      simp
    refine ⟨?_, ?_⟩
    · intro b hb
      refine ⟨?_, ?_⟩
      · intro hpos
        simp [Allow, hkey, hb, hpos]
      · intro hz
        simp [Allow, hkey, hb, hz]
    · intro hnone
      simp [Allow, hkey, hnone]
  · intro hc
    have hkey : getIPFromIdentifier ip = "" := by
      unfold getIPFromIdentifier
      rw [hc]
      simp
    simp [Allow, hkey, hempty]
  · intro b hb
    refine ⟨?_, ?_⟩
    · intro hpos
      simp [allowDefault, hb, hpos]
    · intro hz
      simp [allowDefault, hb, hz]
  · intro hnone
    simp [allowDefault, hnone]

/-- C7 witness: on a limiter with default capacity 2 and a registered
client "9.9.9.9" with capacity 1, the key "9.9.9.9" is served from its own
bucket. -/
theorem allow_client_bucket_or_default_witness :
    (AddClient (NewTokenBucketLimiter 2)
        ⟨"9.9.9.9", 1, 5⟩).tokenBucket "" = none ∧
    ("9.9.9.9".data.contains '.' || "9.9.9.9".data.contains ':') = true ∧
    (AddClient (NewTokenBucketLimiter 2)
        ⟨"9.9.9.9", 1, 5⟩).tokenBucket "9.9.9.9" = some ⟨1, 1⟩ ∧
    Allow (AddClient (NewTokenBucketLimiter 2) ⟨"9.9.9.9", 1, 5⟩) "9.9.9.9" =
      ({ AddClient (NewTokenBucketLimiter 2) ⟨"9.9.9.9", 1, 5⟩ with
          tokenBucket :=
            mapUpdate (AddClient (NewTokenBucketLimiter 2)
                ⟨"9.9.9.9", 1, 5⟩).tokenBucket "9.9.9.9" ⟨0, 1⟩ }, true) :=
  ⟨by decide, by decide, by decide,
   (((allow_client_bucket_or_default
        (AddClient (NewTokenBucketLimiter 2) ⟨"9.9.9.9", 1, 5⟩) "9.9.9.9"
        (by decide)).1 (by decide)).1 ⟨1, 1⟩ (by decide)).1 (by decide)⟩

/-- C8: adding a client with a non-empty key then reading it back yields
that config; adding then deleting then reading yields absence, the delete
removing both the stored config and the bucket under that key. -/
theorem addClient_deleteClient_roundTrip (tb : TokenBucketLimiter)
    (c : ClientConfig) (h : c.Ip ≠ "") :
    GetClient (AddClient tb c) c.Ip = some c ∧
    GetClient (DeleteClient (AddClient tb c) c.Ip) c.Ip = none ∧
    (DeleteClient (AddClient tb c) c.Ip).clients c.Ip = none ∧
    (DeleteClient (AddClient tb c) c.Ip).tokenBucket c.Ip = none := by
  refine ⟨?_, ?_, ?_, ?_⟩ <;>
    simp [GetClient, AddClient, DeleteClient, mapUpdate, mapDelete, h]

/-- C8 witness: the round trip at the concrete client ⟨"1.2.3.4", 5, 10⟩. -/
theorem addClient_deleteClient_roundTrip_witness :
    ("1.2.3.4" : String) ≠ "" ∧
    (GetClient (AddClient (NewTokenBucketLimiter 3) ⟨"1.2.3.4", 5, 10⟩)
        "1.2.3.4" = some ⟨"1.2.3.4", 5, 10⟩ ∧
      GetClient (DeleteClient (AddClient (NewTokenBucketLimiter 3)
        ⟨"1.2.3.4", 5, 10⟩) "1.2.3.4") "1.2.3.4" = none ∧
      (DeleteClient (AddClient (NewTokenBucketLimiter 3)
        ⟨"1.2.3.4", 5, 10⟩) "1.2.3.4").clients "1.2.3.4" = none ∧
      (DeleteClient (AddClient (NewTokenBucketLimiter 3)
        ⟨"1.2.3.4", 5, 10⟩) "1.2.3.4").tokenBucket "1.2.3.4" = none) :=
  ⟨by decide,
   addClient_deleteClient_roundTrip (NewTokenBucketLimiter 3)
     ⟨"1.2.3.4", 5, 10⟩ (by decide)⟩

/-! ## Token-range invariant (C6)

The operations that touch buckets, interleaved in any order, are a refill
tick, an admission attempt for some key, and client addition/removal; each
is atomic under the limiter's locks, so an interleaving is a sequence. -/

/-- One atomic limiter operation. -/
inductive LimiterOp where
  | refill : LimiterOp
  | allowOp (ip : String) : LimiterOp
  | addClientOp (c : ClientConfig) : LimiterOp
  | deleteClientOp (ip : String) : LimiterOp

/-- Run a sequence of limiter operations. -/
def runLimiter (tb : TokenBucketLimiter) : List LimiterOp → TokenBucketLimiter
  | [] => tb
  | op :: rest =>
      match op with
      | .refill => runLimiter (refillBuckets tb) rest
      | .allowOp ip => runLimiter (Allow tb ip).1 rest
      | .addClientOp c => runLimiter (AddClient tb c) rest
      | .deleteClientOp ip => runLimiter (DeleteClient tb ip) rest

/-- Every registered bucket holds at most its capacity (the count is a
`Nat`, so the lower bound 0 is structural). -/
def BucketsInRange (tb : TokenBucketLimiter) : Prop :=
  ∀ k b, tb.tokenBucket k = some b → b.tokens ≤ b.cap

lemma bucketsInRange_refillBuckets (tb : TokenBucketLimiter)
    (h : BucketsInRange tb) : BucketsInRange (refillBuckets tb) := by
  intro k b hb
  simp only [refillBuckets, Option.map_eq_some'] at hb
  obtain ⟨b0, hb0, rfl⟩ := hb
  have hle := h k b0 hb0
  unfold refillBucket
  split
  · rename_i hlt
    show b0.tokens + 1 ≤ b0.cap
    omega
  · exact hle

lemma allowDefault_pointwise (tb : TokenBucketLimiter) (k : String) :
    (allowDefault tb).1.tokenBucket k = tb.tokenBucket k ∨
    ∃ b, tb.tokenBucket k = some b ∧ 0 < b.tokens ∧
      (allowDefault tb).1.tokenBucket k = some ⟨b.tokens - 1, b.cap⟩ := by
  rcases hd : tb.tokenBucket "default" with _ | b
  · left
    simp [allowDefault, hd]
  · by_cases hp : 0 < b.tokens
    · by_cases hk : k = "default"
      · subst hk
        right
        exact ⟨b, hd, hp, by simp [allowDefault, hd, hp, mapUpdate]⟩
      · left
        simp [allowDefault, hd, hp, mapUpdate, hk]
    · left
      simp [allowDefault, hd, hp]

lemma allow_pointwise (tb : TokenBucketLimiter) (ip : String) (k : String) :
    (Allow tb ip).1.tokenBucket k = tb.tokenBucket k ∨
    ∃ b, tb.tokenBucket k = some b ∧ 0 < b.tokens ∧
      (Allow tb ip).1.tokenBucket k = some ⟨b.tokens - 1, b.cap⟩ := by
  rcases hd : tb.tokenBucket (getIPFromIdentifier ip) with _ | b
  · have he : Allow tb ip = allowDefault tb := by
      simp [Allow, hd]
    rw [he]
    exact allowDefault_pointwise tb k
  · by_cases hp : 0 < b.tokens
    · by_cases hk : k = getIPFromIdentifier ip
      · subst hk
        right
        exact ⟨b, hd, hp, by simp [Allow, hd, hp, mapUpdate]⟩
      · left
        simp [Allow, hd, hp, mapUpdate, hk]
    · left
      simp [Allow, hd, hp]

lemma bucketsInRange_Allow (tb : TokenBucketLimiter) (ip : String)
    (h : BucketsInRange tb) : BucketsInRange (Allow tb ip).1 := by
  intro k b2 hb2
  rcases allow_pointwise tb ip k with heq | ⟨b, hb, hp, he⟩
  · exact h k b2 (heq ▸ hb2)
  · rw [he] at hb2
    cases hb2
    have := h k b hb
    simp only []
    omega

lemma bucketsInRange_AddClient (tb : TokenBucketLimiter) (c : ClientConfig)
    (h : BucketsInRange tb) : BucketsInRange (AddClient tb c) := by
  intro k b hb
  simp only [AddClient, mapUpdate] at hb
  split at hb
  · cases hb
    simp [newBucket]
  · exact h k b hb

lemma bucketsInRange_DeleteClient (tb : TokenBucketLimiter) (ip : String)
    (h : BucketsInRange tb) : BucketsInRange (DeleteClient tb ip) := by
  intro k b hb
  rcases hc : tb.clients ip with _ | client <;>
    simp only [DeleteClient, hc] at hb
  · exact h k b hb
  · by_cases hip : client.Ip ≠ ""
    · rw [if_pos hip] at hb
      simp only [mapDelete] at hb
      split at hb
      · cases hb
      · split at hb
        · cases hb
        · exact h k b hb
    · rw [if_neg hip] at hb
      simp only [mapDelete] at hb
      split at hb
      · cases hb
      · exact h k b hb

lemma bucketsInRange_runLimiter (tb : TokenBucketLimiter)
    (ops : List LimiterOp) (h : BucketsInRange tb) :
    BucketsInRange (runLimiter tb ops) := by
  induction ops generalizing tb with
  | nil => exact h
  | cons op rest ih =>
      cases op with
      | refill => exact ih _ (bucketsInRange_refillBuckets tb h)
      | allowOp ip => exact ih _ (bucketsInRange_Allow tb ip h)
      | addClientOp c => exact ih _ (bucketsInRange_AddClient tb c h)
      | deleteClientOp ip => exact ih _ (bucketsInRange_DeleteClient tb ip h)

/-- C6: starting from construction (a full `default` bucket of the
configured limit), any sequence of refill ticks, admissions, and client
management keeps every registered bucket's token count within
[0, capacity]; moreover construction and `AddClient` seed exactly the
capacity, a refill tick adds exactly one token to a non-full bucket and
leaves a full one alone, and an admission removes at most one token and
never touches an empty bucket. -/
theorem limiter_tokens_in_range (limit : Nat) (ops : List LimiterOp) :
    (∀ k b,
      (runLimiter (NewTokenBucketLimiter limit) ops).tokenBucket k = some b →
      b.tokens ≤ b.cap) ∧
    (NewTokenBucketLimiter limit).tokenBucket "default" =
      some ⟨limit, limit⟩ ∧
    (∀ tb c, (AddClient tb c).tokenBucket c.Ip =
      some ⟨c.Capacity, c.Capacity⟩) ∧
    (∀ b : Bucket, b.tokens < b.cap →
      refillBucket b = ⟨b.tokens + 1, b.cap⟩) ∧
    (∀ b : Bucket, b.cap ≤ b.tokens → refillBucket b = b) ∧
    (∀ tb ip k, ∀ b : Bucket, tb.tokenBucket k = some b → b.tokens = 0 →
      (Allow tb ip).1.tokenBucket k = some b) ∧
    (∀ tb ip k, ∀ b b2 : Bucket, tb.tokenBucket k = some b →
      (Allow tb ip).1.tokenBucket k = some b2 →
      b.tokens - 1 ≤ b2.tokens ∧ b2.tokens ≤ b.tokens ∧ b2.cap = b.cap) := by
  refine ⟨?_, ?_, ?_, ?_, ?_, ?_, ?_⟩
  · exact bucketsInRange_runLimiter _ ops (by
      intro k b hb
      simp only [NewTokenBucketLimiter, mapUpdate] at hb
      split at hb
      · cases hb
        simp [newBucket]
      · cases hb)
  · simp [NewTokenBucketLimiter, mapUpdate, newBucket]
  · intro tb c
    simp [AddClient, mapUpdate, newBucket]
  · intro b hlt
    simp [refillBucket, hlt]
  · intro b hge
    have : ¬ b.tokens < b.cap := by omega
    simp [refillBucket, this]
  · intro tb ip k b hb hz
    rcases allow_pointwise tb ip k with heq | ⟨b0, hb0, hp, _⟩
    · rw [heq, hb]
    · rw [hb0] at hb
      cases hb
      omega
  · intro tb ip k b b2 hb hb2
    rcases allow_pointwise tb ip k with heq | ⟨b0, hb0, hp, he⟩
    · rw [heq, hb] at hb2
      cases hb2
      exact ⟨Nat.sub_le _ _, le_rfl, rfl⟩
    · rw [hb0] at hb
      cases hb
      rw [he] at hb2
      cases hb2
      refine ⟨le_rfl, Nat.sub_le _ _, rfl⟩

/-- C6 witness: with default capacity 2, an admission for an unregistered
key then three refill ticks leave the default bucket full at 2 of 2; the
invariant conjunct applied at that concrete run. -/
theorem limiter_tokens_in_range_witness :
    (runLimiter (NewTokenBucketLimiter 2)
        [.allowOp "a", .refill, .refill, .refill]).tokenBucket "default" =
      some ⟨2, 2⟩ ∧
    (2 : Nat) ≤ 2 :=
  ⟨by decide,
   (limiter_tokens_in_range 2 [.allowOp "a", .refill, .refill, .refill]).1
     "default" ⟨2, 2⟩ (by decide)⟩

/-! ## Proxy retries (part_007: executeWithRetries, proxyRequest)

An attempt either fails at the transport (Go `client.Do` returns an error,
`resp` is nil) or yields a response with some status.  `executeWithRetries`
is given the outcome each attempt would observe; the list's length is the
`maxRetries` budget (3 at the call site).  The result records the `resp`
and `err` values the Go function returns plus the number of attempts the
loop executed. -/

/-- Outcome of a single forwarded attempt. -/
inductive AttemptOutcome where
  | transportError : AttemptOutcome
  | response (status : Nat) : AttemptOutcome
deriving DecidableEq, Repr

/-- Return value of `executeWithRetries`: the final `resp` (a status, or
`none` for the nil response of a transport error), whether `err` was
non-nil, and how many attempts ran. -/
structure RetryResult where
  resp : Option Nat
  errFlag : Bool
  attemptsUsed : Nat
deriving DecidableEq, Repr

/-- The retry loop: a 2xx response returns at once; a 4xx other than 429
breaks out; any other outcome (transport error, 5xx, 429) retries while
attempts remain; after the loop the last attempt's `resp`/`err` pair is
returned. -/
def executeWithRetries : List AttemptOutcome → RetryResult
  | [] => ⟨none, false, 0⟩
  | o :: rest =>
      match o with
      | .transportError =>
          match rest with
          | [] => ⟨none, true, 1⟩
          | _ :: _ =>
              let r := executeWithRetries rest
              ⟨r.resp, r.errFlag, r.attemptsUsed + 1⟩
      | .response s =>
          if 200 ≤ s ∧ s < 300 then ⟨some s, false, 1⟩
          else if 400 ≤ s ∧ s < 500 ∧ s ≠ 429 then ⟨some s, false, 1⟩
          else
            match rest with
            | [] => ⟨some s, false, 1⟩
            | _ :: _ =>
                let r := executeWithRetries rest
                ⟨r.resp, r.errFlag, r.attemptsUsed + 1⟩

/-- An attempt succeeds: no transport error and a 2xx status. -/
def isSuccess : AttemptOutcome → Bool
  | .transportError => false
  | .response s => decide (200 ≤ s ∧ s < 300)

/-- An attempt is terminal non-retryable: a 4xx status other than 429. -/
def isTerminal : AttemptOutcome → Bool
  | .transportError => false
  | .response s => decide (400 ≤ s ∧ s < 500 ∧ s ≠ 429)

/-- An attempt is retryable: neither a success nor terminal. -/
def isRetryable (o : AttemptOutcome) : Bool := !isSuccess o && !isTerminal o

/-- The status `proxyRequest` sends to the client: 502 when
`executeWithRetries` returned a non-nil error, otherwise the returned
response's status is copied through (`none` models the nil-response crash
that cannot occur for a non-empty attempt list). -/
def proxyResponseStatus (outcomes : List AttemptOutcome) : Option Nat :=
  if (executeWithRetries outcomes).errFlag then some 502
  else (executeWithRetries outcomes).resp

lemma executeWithRetries_char (outcomes : List AttemptOutcome)
    (h : outcomes ≠ []) :
    1 ≤ (executeWithRetries outcomes).attemptsUsed ∧
    (executeWithRetries outcomes).attemptsUsed ≤ outcomes.length ∧
    (∀ i, i + 1 < (executeWithRetries outcomes).attemptsUsed →
      isRetryable (outcomes.getD i (.response 0)) = true) ∧
    ((executeWithRetries outcomes).attemptsUsed < outcomes.length →
      isRetryable (outcomes.getD
        ((executeWithRetries outcomes).attemptsUsed - 1) (.response 0)) =
        false) ∧
    (∀ s, outcomes.getD ((executeWithRetries outcomes).attemptsUsed - 1)
        (.response 0) = .response s →
      (executeWithRetries outcomes).resp = some s ∧
      (executeWithRetries outcomes).errFlag = false) ∧
    (outcomes.getD ((executeWithRetries outcomes).attemptsUsed - 1)
        (.response 0) = .transportError →
      (executeWithRetries outcomes).resp = none ∧
      (executeWithRetries outcomes).errFlag = true) := by
  induction outcomes with
  | nil => exact absurd rfl h
  | cons o rest ih =>
      cases o with
      | transportError =>
          cases rest with
          | nil =>
              have hstep : executeWithRetries [.transportError] =
                  ⟨none, true, 1⟩ := rfl
              rw [hstep]
              refine ⟨le_rfl, by simp, ?_, ?_, ?_, ?_⟩
              · intro i hi
                simp only at hi
                omega
              · intro hlt
                simp only [List.length_cons, List.length_nil] at hlt
                omega
              · intro s hs
                rw [show ((⟨none, true, 1⟩ : RetryResult).attemptsUsed - 1)
                    = 0 from rfl, List.getD_cons_zero] at hs
                cases hs
              · intro _
                exact ⟨rfl, rfl⟩
          | cons x xs =>
              obtain ⟨ih1, ih2, ih3, ih4, ih5, ih6⟩ := ih (by simp)
              have hstep :
                  executeWithRetries (.transportError :: x :: xs) =
                    ⟨(executeWithRetries (x :: xs)).resp,
                     (executeWithRetries (x :: xs)).errFlag,
                     (executeWithRetries (x :: xs)).attemptsUsed + 1⟩ := rfl
              rw [hstep]
              dsimp only
              obtain ⟨j, hj⟩ : ∃ j, (executeWithRetries (x :: xs)).attemptsUsed
                  = j + 1 := ⟨_, (Nat.succ_pred_eq_of_pos ih1).symm⟩
              refine ⟨by omega, ?_, ?_, ?_, ?_, ?_⟩
              · simp only [List.length_cons] at ih2 ⊢
                omega
              · intro i hi
                cases i with
                | zero => rfl
                | succ i2 =>
                    rw [List.getD_cons_succ]
                    exact ih3 i2 (by omega)
              · intro hlt
                rw [Nat.add_sub_cancel, hj, List.getD_cons_succ]
                have h4 := ih4 (by
                  simp only [List.length_cons] at hlt ⊢
                  omega)
                rw [hj, Nat.add_sub_cancel] at h4
                exact h4
              · intro s hs
                rw [Nat.add_sub_cancel, hj, List.getD_cons_succ] at hs
                exact ih5 s (by rw [hj, Nat.add_sub_cancel]; exact hs)
              · intro hs
                rw [Nat.add_sub_cancel, hj, List.getD_cons_succ] at hs
                exact ih6 (by rw [hj, Nat.add_sub_cancel]; exact hs)
      | response s0 =>
          by_cases hsucc : 200 ≤ s0 ∧ s0 < 300
          · have hstep : executeWithRetries (.response s0 :: rest) =
                ⟨some s0, false, 1⟩ := by
              cases rest <;> simp [executeWithRetries, hsucc]
            rw [hstep]
            refine ⟨le_rfl, by simp, ?_, ?_, ?_, ?_⟩
            · intro i hi
              simp only at hi
              omega
            · intro _
              rw [show ((⟨some s0, false, 1⟩ : RetryResult).attemptsUsed - 1)
                  = 0 from rfl, List.getD_cons_zero]
              simp [isRetryable, isSuccess, hsucc]
            · intro s hs
              rw [show ((⟨some s0, false, 1⟩ : RetryResult).attemptsUsed - 1)
                  = 0 from rfl, List.getD_cons_zero] at hs
              injection hs with h2
              subst h2
              exact ⟨rfl, rfl⟩
            · intro hs
              rw [show ((⟨some s0, false, 1⟩ : RetryResult).attemptsUsed - 1)
                  = 0 from rfl, List.getD_cons_zero] at hs
              cases hs
          · by_cases hterm : 400 ≤ s0 ∧ s0 < 500 ∧ s0 ≠ 429
            · have hstep : executeWithRetries (.response s0 :: rest) =
                  ⟨some s0, false, 1⟩ := by
                cases rest <;> simp [executeWithRetries, hsucc, hterm]
              rw [hstep]
              refine ⟨le_rfl, by simp, ?_, ?_, ?_, ?_⟩
              · intro i hi
                simp only at hi
                omega
              · intro _
                rw [show ((⟨some s0, false, 1⟩ : RetryResult).attemptsUsed
                    - 1) = 0 from rfl, List.getD_cons_zero]
                simp [isRetryable, isTerminal, hterm]
              · intro s hs
                rw [show ((⟨some s0, false, 1⟩ : RetryResult).attemptsUsed
                    - 1) = 0 from rfl, List.getD_cons_zero] at hs
                injection hs with h2
                subst h2
                exact ⟨rfl, rfl⟩
              · intro hs
                rw [show ((⟨some s0, false, 1⟩ : RetryResult).attemptsUsed
                    - 1) = 0 from rfl, List.getD_cons_zero] at hs
                cases hs
            · have hretry : isRetryable (.response s0) = true := by
                simp [isRetryable, isSuccess, isTerminal, hsucc]
                omega
              cases rest with
              | nil =>
                  have hstep : executeWithRetries [.response s0] =
                      ⟨some s0, false, 1⟩ := by
                    simp [executeWithRetries, hsucc, hterm]
                  rw [hstep]
                  refine ⟨le_rfl, by simp, ?_, ?_, ?_, ?_⟩
                  · intro i hi
                    simp only at hi
                    omega
                  · intro hlt
                    simp only [List.length_cons, List.length_nil] at hlt
                    omega
                  · intro s hs
                    rw [show ((⟨some s0, false, 1⟩ :
                        RetryResult).attemptsUsed - 1) = 0 from rfl,
                      List.getD_cons_zero] at hs
                    injection hs with h2
                    subst h2
                    exact ⟨rfl, rfl⟩
                  · intro hs
                    rw [show ((⟨some s0, false, 1⟩ :
                        RetryResult).attemptsUsed - 1) = 0 from rfl,
                      List.getD_cons_zero] at hs
                    cases hs
              | cons x xs =>
                  obtain ⟨ih1, ih2, ih3, ih4, ih5, ih6⟩ := ih (by simp)
                  have hstep :
                      executeWithRetries (.response s0 :: x :: xs) =
                        ⟨(executeWithRetries (x :: xs)).resp,
                         (executeWithRetries (x :: xs)).errFlag,
                         (executeWithRetries (x :: xs)).attemptsUsed
                           + 1⟩ := by
                    simp [executeWithRetries, hsucc, hterm]
                  rw [hstep]
                  dsimp only
                  obtain ⟨j, hj⟩ :
                      ∃ j, (executeWithRetries (x :: xs)).attemptsUsed
                        = j + 1 := ⟨_, (Nat.succ_pred_eq_of_pos ih1).symm⟩
                  refine ⟨by omega, ?_, ?_, ?_, ?_, ?_⟩
                  · simp only [List.length_cons] at ih2 ⊢
                    omega
                  · intro i hi
                    cases i with
                    | zero =>
                        rw [List.getD_cons_zero]
                        exact hretry
                    | succ i2 =>
                        rw [List.getD_cons_succ]
                        exact ih3 i2 (by omega)
                  · intro hlt
                    rw [Nat.add_sub_cancel, hj, List.getD_cons_succ]
                    have h4 := ih4 (by
                      simp only [List.length_cons] at hlt ⊢
                      omega)
                    rw [hj, Nat.add_sub_cancel] at h4
                    exact h4
                  · intro s hs
                    rw [Nat.add_sub_cancel, hj, List.getD_cons_succ] at hs
                    exact ih5 s (by rw [hj, Nat.add_sub_cancel]; exact hs)
                  · intro hs
                    rw [Nat.add_sub_cancel, hj, List.getD_cons_succ] at hs
                    exact ih6 (by rw [hj, Nat.add_sub_cancel]; exact hs)

/-- C3: the retry loop with the call-site budget of 3 makes between 1 and
3 attempts; every attempt before the last was retryable (transport error,
5xx, or 429); the loop stops early only on a non-retryable outcome (a 2xx
success or a 4xx-except-429 terminal status); and the call returns a
success — no error with a 2xx response — exactly when its final attempt
had no transport error and a status in [200, 300). -/
theorem executeWithRetries_retryPolicy (o1 o2 o3 : AttemptOutcome) :
    (executeWithRetries [o1, o2, o3]).attemptsUsed ≤ 3 ∧
    1 ≤ (executeWithRetries [o1, o2, o3]).attemptsUsed ∧
    (∀ i, i + 1 < (executeWithRetries [o1, o2, o3]).attemptsUsed →
      isRetryable ([o1, o2, o3].getD i (.response 0)) = true) ∧
    ((executeWithRetries [o1, o2, o3]).attemptsUsed < 3 →
      isRetryable ([o1, o2, o3].getD
        ((executeWithRetries [o1, o2, o3]).attemptsUsed - 1)
        (.response 0)) = false) ∧
    (((executeWithRetries [o1, o2, o3]).errFlag = false ∧
      ∃ s, (executeWithRetries [o1, o2, o3]).resp = some s ∧
        200 ≤ s ∧ s < 300) ↔
      isSuccess ([o1, o2, o3].getD
        ((executeWithRetries [o1, o2, o3]).attemptsUsed - 1)
        (.response 0)) = true) := by
  obtain ⟨h1, h2, h3, h4, h5, h6⟩ :=
    executeWithRetries_char [o1, o2, o3] (by simp)
  refine ⟨by simpa using h2, h1, h3, by simpa using h4, ?_⟩
  constructor
  · rintro ⟨hf, s, hr, hs1, hs2⟩
    cases hgd : [o1, o2, o3].getD
        ((executeWithRetries [o1, o2, o3]).attemptsUsed - 1)
        (.response 0) with
    | transportError =>
        rw [(h6 hgd).2] at hf
        cases hf
    | response s2 =>
        rw [(h5 s2 hgd).1] at hr
        injection hr with h7
        subst h7
        simp [isSuccess]
        omega
  · intro hsucc
    cases hgd : [o1, o2, o3].getD
        ((executeWithRetries [o1, o2, o3]).attemptsUsed - 1)
        (.response 0) with
    | transportError =>
        rw [hgd] at hsucc
        simp [isSuccess] at hsucc
    | response s2 =>
        rw [hgd] at hsucc
        simp only [isSuccess, decide_eq_true_eq] at hsucc
        exact ⟨(h5 s2 hgd).2, s2, (h5 s2 hgd).1, hsucc.1, hsucc.2⟩

/-- C3 witness: two 500s then a 200 — the first attempt is counted as
retryable by the policy conjunct, applied at index 0. -/
theorem executeWithRetries_retryPolicy_witness :
    (0 : Nat) + 1 < (executeWithRetries
      [.response 500, .response 500, .response 200]).attemptsUsed ∧
    isRetryable (([.response 500, .response 500, .response 200] :
      List AttemptOutcome).getD 0 (.response 0)) = true :=
  ⟨by decide,
   (executeWithRetries_retryPolicy (.response 500) (.response 500)
     (.response 200)).2.2.1 0 (by decide)⟩

/-- C2 counterexample: three attempts all answering 500 — every attempt
retryable, retries exhausted — yet the proxy relays 500 to the client, not
502; likewise a terminal 404 is relayed, not turned into 502. -/
theorem proxy_relays_exhausted_5xx_counterexample :
    isRetryable (.response 500) = true ∧
    proxyResponseStatus [.response 500, .response 500, .response 500] =
      some 500 ∧
    proxyResponseStatus [.response 500, .response 500, .response 500] ≠
      some 502 ∧
    isTerminal (.response 404) = true ∧
    proxyResponseStatus [.response 404, .response 404, .response 404] =
      some 404 := by
  refine ⟨rfl, rfl, by decide, rfl, rfl⟩

/-- C2 amended: the proxy responds 502 exactly when `executeWithRetries`
returns a non-nil error, which happens exactly when the final attempt
executed had a transport error; when the final attempt produced an HTTP
response — retries exhausted on 5xx/429, or a terminal non-retryable 4xx —
that response's status is relayed to the client instead. -/
theorem proxy_502_exactly_on_final_transport_error
    (outcomes : List AttemptOutcome) (h : outcomes ≠ []) :
    ((executeWithRetries outcomes).errFlag = true ↔
      outcomes.getD ((executeWithRetries outcomes).attemptsUsed - 1)
        (.response 0) = .transportError) ∧
    ((executeWithRetries outcomes).errFlag = true →
      proxyResponseStatus outcomes = some 502) ∧
    ((executeWithRetries outcomes).errFlag = false →
      proxyResponseStatus outcomes = (executeWithRetries outcomes).resp) := by
  obtain ⟨h1, h2, h3, h4, h5, h6⟩ := executeWithRetries_char outcomes h
  refine ⟨⟨?_, fun hg => (h6 hg).2⟩, ?_, ?_⟩
  · intro hf
    cases hgd : outcomes.getD
        ((executeWithRetries outcomes).attemptsUsed - 1) (.response 0) with
    | transportError => rfl
    | response s2 =>
        rw [(h5 s2 hgd).2] at hf
        cases hf
  · intro hf
    simp [proxyResponseStatus, hf]
  · intro hf
    simp [proxyResponseStatus, hf]

/-- C2 amended witness: three transport errors — the error flag is set and
the client receives 502. -/
theorem proxy_502_exactly_on_final_transport_error_witness :
    ([.transportError, .transportError, .transportError] :
      List AttemptOutcome) ≠ [] ∧
    proxyResponseStatus
      [.transportError, .transportError, .transportError] = some 502 :=
  ⟨by decide,
   (proxy_502_exactly_on_final_transport_error
     [.transportError, .transportError, .transportError]
     (by decide)).2.1 (by decide)⟩

end LB
